import Mathlib

/-!
Verification of the RP2040 quadrature-encoder firmware
(`src/rp2040-encoder/code.py`, CircuitPython).

The firmware is a single poll loop: sample the two encoder pins, decode the
quadrature transition through a fixed 16-entry table, accumulate deltas into a
position counter and a pending-transmission counter, periodically flush the
pending delta over the USB-CDC data port as a line-delimited JSON report, and
handle inbound JSON command lines (`reset`, `ping`, `led`).

Shallow embedding choices:
- Python's dynamically typed values arriving from `json.loads` are modelled by
  the inductive type `Json` below (JSON floats are not modelled; every numeric
  payload is an integer, which covers all behaviours the claims exercise).
  The global `position` variable is typed `Json` because `handle_command`
  assigns it the raw `position` field of a reset command (code.py line 93),
  whatever its JSON type.
- Timestamps (`time.monotonic()`) are rationals; `SEND_INTERVAL = 0.05`
  becomes `1/20 : ℚ`.
- A Python statement that can raise an uncaught exception is embedded in
  `Except Unit`; `try/except Exception: pass` blocks become total functions.
- Writes to the transport may fail (`usb_cdc.data` absent, or `write` raising,
  both swallowed by the code); a `writeOk : Bool` parameter says whether the
  write would have succeeded, and a failed write simply produces no output.
- `json.loads` itself is not embedded; functions that parse take a
  `parse : String → Except Unit Json` parameter ranging over every outcome
  the real parser can produce (any `Json` value, or a parse failure).
-/

/-- A JSON value as produced by `json.loads` (floats omitted, see header). -/
inductive Json where
  | null : Json
  | bool (b : Bool) : Json
  | num (n : Int) : Json
  | str (s : String) : Json
  | arr (xs : List Json) : Json
  | obj (fields : List (String × Json)) : Json

/-- Inbound command, the decoded form of the three `type` values that
`handle_command` (code.py lines 85-108) recognises.  Field payloads stay raw
`Json` because the code does not validate them. -/
inductive Command where
  | reset (pos : Json) : Command
  | ping : Command
  | setLed (onVal : Json) : Command

/-- Outbound protocol event: `send_encoder_data` (code.py lines 65-72) and the
pong reply (code.py lines 100-104). -/
inductive Outbound where
  | encoderReport (delta : Int) (pos : Json) : Outbound
  | pong (pos : Json) : Outbound

/-- The firmware's global mutable state (code.py lines 31-37, 63 and the `led`
output): `position`, `accumulated_delta`, `last_send_time`, `last_state`, and
the LED value (last value assigned to `led.value`). -/
structure MState where
  position : Json
  accumulated_delta : Int
  last_send_time : ℚ
  last_state : Nat
  led : Json

/-- `SEND_INTERVAL = 0.05` (code.py line 38). -/
def sendInterval : ℚ := 1 / 20

/-- `ENCODER_TABLE` (code.py lines 44-61). -/
def encoderTable : List Int :=
  [0, 1, -1, 0, -1, 0, 0, 1, 1, 0, 0, -1, 0, -1, 1, 0]

/-- The 2-bit encoder state `(a << 1) | b` (code.py lines 63 and 122-124). -/
def encState (a b : Bool) : Nat := (a.toNat <<< 1) ||| b.toNat

/-- The table index `(last_state << 2) | current_state` (code.py line 128). -/
def transIdx (prev cur : Nat) : Nat := (prev <<< 2) ||| cur

/-- One decoder observation, code.py lines 127-137 restricted to the
quadrature part: if the sampled state equals the stored one nothing happens
and the table is not consulted, otherwise the table entry at the transition
index is the delta and the stored state becomes the sampled one.  Returns
`(delta, new last_state)`.  The lookup uses `getD 0`; in-boundedness of the
index for every reachable state is proved below (`transition_index_in_bounds`).
-/
def decoderStep (prev : Nat) (a b : Bool) : Int × Nat :=
  let cur := encState a b
  if cur = prev then (0, prev)
  else (encoderTable.getD (transIdx prev cur) 0, cur)

/-- Decoder states the firmware can actually hold in `last_state`: the initial
pin sample (code.py line 63) and anything produced by the poll-loop update
(code.py line 137). -/
inductive ReachableEnc : Nat → Prop where
  | init (a b : Bool) : ReachableEnc (encState a b)
  | step (s : Nat) (a b : Bool) : ReachableEnc s → ReachableEnc (decoderStep s a b).2

/-- Modelled from the spec (section 4.1): the fixed 16-entry transition table
as the spec text lists it, to be compared with `encoderTable` from the code. -/
def specTable : List Int :=
  [0, 1, -1, 0, -1, 0, 0, 1, 1, 0, 0, -1, 0, -1, 1, 0]

/-- Python `+=` on a value of JSON type: defined (as integer addition) for
numbers and booleans (Python `bool` is an `int` subclass), a `TypeError` —
hence an uncaught exception in the poll loop — for every other type. -/
def jadd (j : Json) (d : Int) : Except Unit Json :=
  match j with
  | .num n => .ok (.num (n + d))
  | .bool b => .ok (.num (b.toNat + d))
  | _ => .error ()

/-- `dict.get(key, default)` on a decoded JSON object's field list. -/
def jget (fields : List (String × Json)) (key : String) (dflt : Json) : Json :=
  match fields.find? (fun p => p.1 == key) with
  | some p => p.2
  | none => dflt

/-- The delta-application part of the poll loop (code.py lines 131-133):
`if delta != 0: position += delta; accumulated_delta += delta`.  The `+=` on
`position` can raise when `position` holds a non-numeric JSON value. -/
def applyDelta (d : Int) (s : MState) : Except Unit MState :=
  if d = 0 then .ok s
  else do
    let p ← jadd s.position d
    .ok { s with position := p, accumulated_delta := s.accumulated_delta + d }

/-- A run of successive nonzero-or-zero deltas fed through `applyDelta`,
modelling motion accumulated across several poll iterations. -/
def applyDeltas : List Int → MState → Except Unit MState
  | [], s => .ok s
  | d :: ds, s => do applyDeltas ds (← applyDelta d s)

/-- The periodic-transmission step (code.py lines 141-146): if
`accumulated_delta != 0 and (now - last_send_time) >= SEND_INTERVAL`, send the
report (write success governed by `writeOk`; a failed write is swallowed by
`send_encoder_data`, code.py lines 65-72), then zero `accumulated_delta` and
stamp `last_send_time` — the post-send updates run whether or not the write
succeeded. -/
def schedTick (now : ℚ) (writeOk : Bool) (s : MState) : MState × List Outbound :=
  if s.accumulated_delta ≠ 0 ∧ now - s.last_send_time ≥ sendInterval then
    ({ s with accumulated_delta := 0, last_send_time := now },
     if writeOk then [.encoderReport s.accumulated_delta s.position] else [])
  else (s, [])

/-- The command-decoding stage on an already-stripped line, extracted from
`check_for_commands`/`handle_command` (code.py lines 79-80 and 89-106): an
empty line is skipped; a parse failure is caught and discarded; a non-object
JSON value raises `AttributeError` at `cmd.get`, which the catch-all in
`check_for_commands` discards; otherwise the `type` field (default `""`) is
compared against the three known command strings (a non-string `type` value
compares unequal to all of them, as in Python). -/
def decodeCore (parse : String → Except Unit Json) (l : String) : Option Command :=
  if l = "" then none
  else
    match parse l with
    | .error _ => none
    | .ok (.obj fields) =>
        match jget fields "type" (.str "") with
        | .str t =>
            if t = "reset" then some (.reset (jget fields "position" (.num 0)))
            else if t = "ping" then some (.ping)
            else if t = "led" then some (.setLed (jget fields "on" (.bool false)))
            else none
        | _ => none
    | .ok _ => none

/-- Whitespace as Python's `str.strip()` sees it. -/
def pyIsSpace (c : Char) : Bool :=
  c == ' ' || c == '\t' || c == '\n' || c == '\r' || c == '\x0b' || c == '\x0c'

/-- Python `str.strip()`: drop leading and trailing whitespace. -/
def pyStrip (s : String) : String :=
  .mk (((s.data.dropWhile pyIsSpace).reverse.dropWhile pyIsSpace).reverse)

/-- Decoding of a raw inbound line: `readline().decode().strip()`
(code.py line 78) strips leading/trailing whitespace first, then
`decodeCore` runs on the stripped line. -/
def decodeLine (parse : String → Except Unit Json) (line : String) : Option Command :=
  decodeCore parse (pyStrip line)

/-- The dispatch part of `handle_command` (code.py lines 85-108) on a decoded
command.  Reset: store the raw `position` payload, immediately send
`EncoderReport(0, new position)` (code.py line 94; dropped when the write
fails), pulse the LED (net effect: LED off, lines 96-98).  Ping: immediately
send `Pong(position)` (lines 102-104).  Led: assign the raw `on` payload to
the LED (line 108).  Returns the new state and the outputs actually written.
-/
def applyCmd (c : Command) (writeOk : Bool) (s : MState) : MState × List Outbound :=
  match c with
  | .reset p =>
      ({ s with position := p, led := .bool false },
       if writeOk then [.encoderReport 0 p] else [])
  | .ping => (s, if writeOk then [.pong s.position] else [])
  | .setLed v => ({ s with led := v }, [])

/-- `check_for_commands` (code.py lines 74-83): when a line is available
(`input = some line`), strip it, decode it, and dispatch; every failure mode
(empty line, parse error, unknown or missing type, non-object value, write
error during the reply) is swallowed by the surrounding `try/except`. -/
def checkForCommands (input : Option String) (parse : String → Except Unit Json)
    (writeOk : Bool) (s : MState) : MState × List Outbound :=
  match input with
  | none => (s, [])
  | some line =>
      match decodeLine parse line with
      | none => (s, [])
      | some c => applyCmd c writeOk s

/-- One iteration of the main poll loop (code.py lines 120-149): sample the
pins, decode the transition and apply a nonzero delta (which sets the LED;
a same-state sample clears it), run the periodic transmission step, then poll
for one inbound command line.  The `position += delta` statement is outside
every `try` block, so a failing `jadd` aborts the iteration — and the
program — with an uncaught `TypeError`. -/
def loopStep (a b : Bool) (now : ℚ) (input : Option String)
    (parse : String → Except Unit Json) (writeOk : Bool) (s : MState) :
    Except Unit (MState × List Outbound) := do
  let cur := encState a b
  let s1 ←
    if cur ≠ s.last_state then
      let d := encoderTable.getD (transIdx s.last_state cur) 0
      if d ≠ 0 then do
        let p ← jadd s.position d
        pure { s with position := p, accumulated_delta := s.accumulated_delta + d,
                      led := .bool true, last_state := cur }
      else pure { s with last_state := cur }
    else pure { s with led := .bool false }
  let (s2, out1) := schedTick now writeOk s1
  let (s3, out2) := checkForCommands input parse writeOk s2
  pure (s3, out1 ++ out2)

/-! Concrete fixtures used by witnesses and counterexamples. -/

/-- The inbound line `{"type":"reset","position":"x"}` — a syntactically valid
reset command whose `position` field is a string. -/
def crashLine : String := "\x7b\"type\":\"reset\",\"position\":\"x\"\x7d"

/-- A parse outcome consistent with `json.loads` on `crashLine`. -/
def crashParse : String → Except Unit Json := fun l =>
  if l = crashLine then .ok (.obj [("type", .str "reset"), ("position", .str "x")])
  else .error ()

/-- Fresh firmware state with both pins high (`last_state = 3`). -/
def crashStart : MState :=
  { position := .num 0, accumulated_delta := 0, last_send_time := 0,
    last_state := 3, led := .bool false }

/-- The state after the firmware handles `crashLine`: `position` now holds the
string `"x"`. -/
def crashMid : MState :=
  { position := .str "x", accumulated_delta := 0, last_send_time := 0,
    last_state := 3, led := .bool false }

/-- A state with three pending delta counts and an old send stamp. -/
def burstState : MState :=
  { position := .num 0, accumulated_delta := 3, last_send_time := 0,
    last_state := 0, led := .bool false }

/-- A just-drained state (`accumulated_delta = 0`, sent at time 0). -/
def drainedState : MState :=
  { position := .num 0, accumulated_delta := 0, last_send_time := 0,
    last_state := 0, led := .bool false }

/-- A state with five pending delta counts. -/
def pendingFive : MState :=
  { position := .num 7, accumulated_delta := 5, last_send_time := 0,
    last_state := 0, led := .bool false }

/-- A state with seven pending delta counts and an old send stamp. -/
def failState : MState :=
  { position := .num 9, accumulated_delta := 7, last_send_time := 0,
    last_state := 0, led := .bool false }

/-- A state with two pending delta counts and an old send stamp. -/
def replyState : MState :=
  { position := .num 0, accumulated_delta := 2, last_send_time := 0,
    last_state := 0, led := .bool false }

/-- The state reached from `burstState` by draining at time `1/10` and then
accumulating two further `+1` deltas. -/
def coalescedState : MState :=
  { position := .num 2, accumulated_delta := 2, last_send_time := 1/10,
    last_state := 0, led := .bool false }

/-- The inbound line `{"type":"reset","position":5}`. -/
def resetLine : String := "\x7b\"type\":\"reset\",\"position\":5\x7d"

/-- The inbound line `{"type":"unknown"}`. -/
def unknownLine : String := "\x7b\"type\":\"unknown\"\x7d"

/-- A parse outcome consistent with `json.loads` on `resetLine`,
`unknownLine`, and anything else (`garbage` fails to parse). -/
def sampleParse : String → Except Unit Json := fun l =>
  if l = resetLine then .ok (.obj [("type", .str "reset"), ("position", .num 5)])
  else if l = unknownLine then .ok (.obj [("type", .str "unknown")])
  else .error ()

/-! Helper lemmas. -/

/-- Every 2-bit pin sample is below 4. -/
theorem encState_lt4 (a b : Bool) : encState a b < 4 := by
  cases a <;> cases b <;> decide

/-- A successful `applyDelta` keeps the send stamp and adds the delta to the
pending counter. -/
theorem applyDelta_ok (d : Int) (s s' : MState) (h : applyDelta d s = .ok s') :
    s'.last_send_time = s.last_send_time
      ∧ s'.accumulated_delta = s.accumulated_delta + d := by
  unfold applyDelta at h
  split at h
  · next hd => cases h; exact ⟨rfl, by omega⟩
  · cases hp : jadd s.position d with
    | error e => rw [hp] at h; simp [Bind.bind, Except.bind] at h
    | ok p =>
        rw [hp] at h
        simp only [Bind.bind, Except.bind] at h
        cases h
        exact ⟨rfl, rfl⟩

/-- A successful `applyDeltas` keeps the send stamp and adds the sum of the
deltas to the pending counter. -/
theorem applyDeltas_ok (ds : List Int) : ∀ s s' : MState,
    applyDeltas ds s = .ok s' →
    s'.last_send_time = s.last_send_time
      ∧ s'.accumulated_delta = s.accumulated_delta + ds.sum := by
  induction ds with
  | nil =>
      intro s s' h
      cases h
      exact ⟨rfl, by simp⟩
  | cons d ds ih =>
      intro s s' h
      unfold applyDeltas at h
      cases hp : applyDelta d s with
      | error e => rw [hp] at h; simp [Bind.bind, Except.bind] at h
      | ok s1 =>
          rw [hp] at h
          simp only [Bind.bind, Except.bind] at h
          obtain ⟨h1, h2⟩ := ih s1 s' h
          obtain ⟨g1, g2⟩ := applyDelta_ok d s s1 hp
          refine ⟨h1.trans g1, ?_⟩
          rw [h2, g2, List.sum_cons]
          ring

/-- When the pending counter is nonzero and the interval has elapsed,
`schedTick` drains, stamps, and emits (if the write succeeds). -/
theorem schedTick_fire (now : ℚ) (w : Bool) (s : MState)
    (h1 : s.accumulated_delta ≠ 0) (h2 : now - s.last_send_time ≥ sendInterval) :
    schedTick now w s
      = ({ s with accumulated_delta := 0, last_send_time := now },
         if w then [.encoderReport s.accumulated_delta s.position] else []) := by
  rw [schedTick, if_pos ⟨h1, h2⟩]

/-- `schedTick` does nothing when the pending counter is zero. -/
theorem schedTick_skip_zero (now : ℚ) (w : Bool) (s : MState)
    (h : s.accumulated_delta = 0) : schedTick now w s = (s, []) := by
  rw [schedTick, if_neg]
  intro hc
  exact hc.1 h

/-- `schedTick` does nothing before the interval has elapsed. -/
theorem schedTick_skip_early (now : ℚ) (w : Bool) (s : MState)
    (h : now - s.last_send_time < sendInterval) : schedTick now w s = (s, []) := by
  rw [schedTick, if_neg]
  intro hc
  exact absurd hc.2 (not_le.mpr h)

/-- Every reachable decoder state is a 2-bit value. -/
theorem reachable_lt4 (s : Nat) (h : ReachableEnc s) : s < 4 := by
  induction h with
  | init a b => exact encState_lt4 a b
  | step s a b hs ih =>
      by_cases hc : encState a b = s
      · simpa [decoderStep, hc] using ih
      · simpa [decoderStep, hc] using encState_lt4 a b

/-- Packing two 2-bit values through `(p <<< 2) ||| c` stays below 16. -/
theorem transIdx_fin_lt16 : ∀ p c : Fin 4, transIdx p.val c.val < 16 := by decide

/-! Claim theorems. -/

/-- Claim C1: for every one of the 16 `(previousState, currentState)` pairs of
2-bit encoder states, the decoder's observe step returns exactly the fixed
table value given in the spec at index `(previousState <<< 2) ||| currentState`,
and for the four same-state pairs it returns 0 without updating
`previousState`. -/
theorem decoder_matches_spec_table :
    ∀ (p : Fin 4) (a b : Bool),
      (decoderStep p.val a b).1 = specTable.getD (transIdx p.val (encState a b)) 0
      ∧ (encState a b = p.val → decoderStep p.val a b = (0, p.val)) := by decide

/-- Claim C1 witness: from stored state `10`, sampling the same pins returns
delta 0 and leaves the stored state at `10`. -/
theorem decoder_matches_spec_table_witness : decoderStep 2 true false = (0, 2) :=
  (decoder_matches_spec_table ⟨2, by norm_num⟩ true false).2 (by decide)

/-- Claim C9: for every reachable decoder state and every sampled pin pair,
the transition index `(previousState <<< 2) ||| currentState` lies in
`[0, 16)`, so the 16-entry table lookup is always in bounds. -/
theorem transition_index_in_bounds (s : Nat) (h : ReachableEnc s) (a b : Bool) :
    transIdx s (encState a b) < 16 :=
  transIdx_fin_lt16 ⟨s, reachable_lt4 s h⟩ ⟨encState a b, encState_lt4 a b⟩

/-- Claim C9 witness: the index is in bounds at the initial state `10` with
sample `00`. -/
theorem transition_index_in_bounds_witness :
    transIdx (encState true false) (encState false false) < 16 :=
  transition_index_in_bounds (encState true false) (.init true false) false false

/-- Claim C2 counterexample: from a state with `pendingDelta = 5`, handling
`reset(42)` sets the position to 42 but leaves `pendingDelta` at 5, not 0. -/
theorem reset_keeps_pending_cex :
    (applyCmd (.reset (.num 42)) true pendingFive).1.position = .num 42
    ∧ (applyCmd (.reset (.num 42)) true pendingFive).1.accumulated_delta ≠ 0 :=
  ⟨rfl, by decide⟩

/-- Claim C2 (amended): for every prior state of the accumulator, handling a
reset command with payload `p` sets the position to `p` and leaves
`pendingDelta` unchanged. -/
theorem reset_sets_position_keeps_pending :
    ∀ (s : MState) (p : Json) (w : Bool),
      (applyCmd (.reset p) w s).1.position = p
      ∧ (applyCmd (.reset p) w s).1.accumulated_delta = s.accumulated_delta := by
  intro s p w
  exact ⟨rfl, rfl⟩

/-- Claim C3 (code bug): the loop iteration that receives the well-formed
JSON command `\x7b"type":"reset","position":"x"\x7d` completes normally and
stores the string `"x"` in `position`; the next iteration in which the encoder
moves one step evaluates `position += delta` on a string — an uncaught
`TypeError` that terminates the poll loop. -/
theorem malformed_reset_crashes_loop :
    loopStep true true 0 (some crashLine) crashParse true crashStart
      = .ok (crashMid, [.encoderReport 0 (.str "x")])
    ∧ loopStep false true (1/100) none crashParse true crashMid = .error () :=
  ⟨rfl, rfl⟩

/-- Claim C5: for every timestamp and every scheduler state, if the pending
delta is zero the transmission step emits nothing and changes nothing, even
when the interval has elapsed. -/
theorem no_report_when_pending_zero (now : ℚ) (w : Bool) (s : MState)
    (h : s.accumulated_delta = 0) : schedTick now w s = (s, []) :=
  schedTick_skip_zero now w s h

/-- Claim C5 witness: at time 5 (one hundred intervals past the last send at
time 0) a zero pending delta still produces no report. -/
theorem no_report_when_pending_zero_witness :
    schedTick 5 true drainedState = (drainedState, []) :=
  no_report_when_pending_zero 5 true drainedState rfl

/-- Claim C4 counterexample: two deltas (`+1` then `-1`) accumulated within
the interval after a drain at time 0 sum to zero, and the tick at the next
interval boundary emits no report at all — not "exactly one report carrying
their sum". -/
theorem zero_sum_coalescing_cex :
    applyDeltas [1, -1] drainedState = .ok drainedState
    ∧ (schedTick (1/10) true drainedState).2 = [] := by
  refine ⟨rfl, ?_⟩
  rw [schedTick_skip_zero (1/10) true drainedState rfl]

/-- Claim C4 (amended): after the scheduler emits at time `t`, the drain sets
the pending delta to exactly 0, no further scheduled report is emitted at any
`t'` with `t' - t < sendInterval` however many deltas accumulate, and the
first boundary tick reports exactly the sum of the deltas accumulated since
the drain when that sum is nonzero — a zero sum yields no report. -/
theorem interval_coalescing (t : ℚ) (w : Bool) (s : MState)
    (h1 : s.accumulated_delta ≠ 0) (h2 : t - s.last_send_time ≥ sendInterval) :
    ((schedTick t w s).1.accumulated_delta = 0)
    ∧ (∀ (ds : List Int) (s'' : MState) (t' : ℚ) (w' : Bool),
        applyDeltas ds (schedTick t w s).1 = .ok s'' → t' - t < sendInterval →
        schedTick t' w' s'' = (s'', []))
    ∧ (∀ (ds : List Int) (s'' : MState) (t' : ℚ),
        applyDeltas ds (schedTick t w s).1 = .ok s'' → ds.sum ≠ 0 →
        t' - t ≥ sendInterval →
        (schedTick t' true s'').2 = [.encoderReport ds.sum s''.position])
    ∧ (∀ (ds : List Int) (s'' : MState) (t' : ℚ) (w' : Bool),
        applyDeltas ds (schedTick t w s).1 = .ok s'' → ds.sum = 0 →
        (schedTick t' w' s'').2 = []) := by
  rw [schedTick_fire t w s h1 h2]
  refine ⟨rfl, ?_, ?_, ?_⟩
  · intro ds s'' t' w' hap hlt
    obtain ⟨hls, _⟩ := applyDeltas_ok ds _ s'' hap
    apply schedTick_skip_early
    rw [hls]
    simpa using hlt
  · intro ds s'' t' hap hsum hge
    obtain ⟨hls, hacc⟩ := applyDeltas_ok ds _ s'' hap
    simp only [] at hls hacc
    rw [schedTick_fire t' true s'' (by rw [hacc]; simpa using hsum)
        (by rw [hls]; simpa using hge)]
    simp [hacc]
  · intro ds s'' t' w' hap hsum
    obtain ⟨_, hacc⟩ := applyDeltas_ok ds _ s'' hap
    rw [schedTick_skip_zero t' w' s'' (by rw [hacc, hsum]; simp)]

/-- Claim C4 witness: a burst of 3 pending counts drains at time `1/10`
leaving 0 pending; two further `+1` deltas accumulated before `11/100`
(inside the interval) produce no report there. -/
theorem interval_coalescing_witness :
    ((schedTick (1/10) true burstState).1.accumulated_delta = 0)
    ∧ schedTick (11/100) true coalescedState = (coalescedState, []) := by
  have hb := interval_coalescing (1/10) true burstState (by decide)
    (by norm_num [sendInterval, burstState])
  refine ⟨hb.1, ?_⟩
  refine hb.2.1 [1, 1] coalescedState (11/100) true ?_ (by norm_num [sendInterval])
  rw [schedTick_fire (1/10) true burstState (by decide)
    (by norm_num [sendInterval, burstState])]
  rfl

/-- Claim C8: when a scheduled transmission's write fails, the failure is
swallowed (no output, no error), the post-send updates still run — the pending
delta is cleared and the send stamp is set — and the next boundary tick
reports exactly the delta accumulated after the failed attempt. -/
theorem write_failure_swallowed (now : ℚ) (s : MState)
    (h1 : s.accumulated_delta ≠ 0) (h2 : now - s.last_send_time ≥ sendInterval) :
    ((schedTick now false s).2 = [])
    ∧ ((schedTick now false s).1.accumulated_delta = 0)
    ∧ ((schedTick now false s).1.last_send_time = now)
    ∧ (∀ (ds : List Int) (s'' : MState) (t' : ℚ),
        applyDeltas ds (schedTick now false s).1 = .ok s'' → ds.sum ≠ 0 →
        t' - now ≥ sendInterval →
        (schedTick t' true s'').2 = [.encoderReport ds.sum s''.position]) := by
  rw [schedTick_fire now false s h1 h2]
  refine ⟨rfl, rfl, rfl, ?_⟩
  intro ds s'' t' hap hsum hge
  obtain ⟨hls, hacc⟩ := applyDeltas_ok ds _ s'' hap
  rw [schedTick_fire t' true s'' (by rw [hacc]; simpa using hsum)
      (by rw [hls]; simpa using hge)]
  simp [hacc]

/-- Claim C8 witness: with 7 pending counts and a failing write at time
`1/10`, nothing is output but the pending delta is cleared and the stamp set.
-/
theorem write_failure_swallowed_witness :
    ((schedTick (1/10) false failState).2 = [])
    ∧ ((schedTick (1/10) false failState).1.accumulated_delta = 0)
    ∧ ((schedTick (1/10) false failState).1.last_send_time = 1/10) := by
  have h := write_failure_swallowed (1/10) failState (by decide)
    (by norm_num [sendInterval, failState])
  exact ⟨h.1, h.2.1, h.2.2.1⟩

/-- Claim C7: handling `Reset p` immediately outputs `EncoderReport 0 p` (the
new position) and handling `Ping` immediately outputs `Pong position`; the
replies are produced by the command handler itself — they do not depend on
`last_send_time` and take no timestamp, so they never wait for the
transmission scheduler. -/
theorem immediate_command_replies :
    ∀ (s : MState) (p : Json) (w : Bool) (q : ℚ),
      ((applyCmd (.reset p) true s).2 = [.encoderReport 0 p])
      ∧ ((applyCmd .ping true s).2 = [.pong s.position])
      ∧ ((applyCmd (.reset p) w { s with last_send_time := q }).2
          = (applyCmd (.reset p) w s).2)
      ∧ ((applyCmd .ping w { s with last_send_time := q }).2
          = (applyCmd .ping w s).2) := by
  intro s p w q
  exact ⟨rfl, rfl, rfl, rfl⟩

/-- Claim C10: handling any inbound command (and the whole non-blocking
command poll) leaves `last_send_time` unchanged, and handling `Ping` changes
no state at all; consequently a scheduled report may fire less than one
interval after a reply — concretely, from `replyState` a ping reply at time
`6/100` is immediately followed by the scheduled report in the same
iteration. -/
theorem command_handling_frame :
    (∀ (c : Command) (w : Bool) (s : MState),
        (applyCmd c w s).1.last_send_time = s.last_send_time)
    ∧ (∀ (w : Bool) (s : MState), (applyCmd .ping w s).1 = s)
    ∧ (∀ (input : Option String) (parse : String → Except Unit Json)
        (w : Bool) (s : MState),
        (checkForCommands input parse w s).1.last_send_time = s.last_send_time)
    ∧ ((schedTick (6/100) true ((applyCmd .ping true replyState).1)).2
        = [.encoderReport 2 (.num 0)]) := by
  refine ⟨?_, ?_, ?_, ?_⟩
  · intro c w s
    cases c <;> rfl
  · intro w s
    rfl
  · intro input parse w s
    rcases input with _ | line
    · rfl
    · rcases h : decodeLine parse line with _ | c
      · simp [checkForCommands, h]
      · simp only [checkForCommands, h]
        cases c <;> rfl
  · rw [show (applyCmd .ping true replyState).1 = replyState from rfl]
    rw [schedTick_fire (6/100) true replyState (by decide)
      (by norm_num [sendInterval, replyState])]
    rfl

/-- Claim C6: for every inbound line and every parse outcome, decoding first
strips leading/trailing whitespace; on the stripped line it yields
`Reset` with the raw `position` field (default 0) for type `"reset"`, `Ping`
for `"ping"`, `SetLed` with the raw `on` field (default false) for `"led"`,
and yields `none` — with no visible error — for an empty line, a parse
failure, a missing `type` field (which defaults to `""`), any other string
`type`, or a non-object JSON value. -/
theorem decode_classification (parse : String → Except Unit Json) (line : String) :
    (decodeLine parse line = decodeCore parse (pyStrip line))
    ∧ (pyStrip line = "" → decodeLine parse line = none)
    ∧ (parse (pyStrip line) = .error () → decodeLine parse line = none)
    ∧ (∀ fields, pyStrip line ≠ "" → parse (pyStrip line) = .ok (.obj fields) →
        ((jget fields "type" (.str "") = .str "reset" →
            decodeLine parse line = some (.reset (jget fields "position" (.num 0))))
        ∧ (jget fields "type" (.str "") = .str "ping" →
            decodeLine parse line = some .ping)
        ∧ (jget fields "type" (.str "") = .str "led" →
            decodeLine parse line = some (.setLed (jget fields "on" (.bool false))))
        ∧ (∀ t, jget fields "type" (.str "") = .str t →
            t ≠ "reset" → t ≠ "ping" → t ≠ "led" →
            decodeLine parse line = none)))
    ∧ (∀ j, pyStrip line ≠ "" → parse (pyStrip line) = .ok j →
        (∀ fields, j ≠ .obj fields) → decodeLine parse line = none) := by
  refine ⟨rfl, ?_, ?_, ?_, ?_⟩
  · intro h
    simp [decodeLine, decodeCore, h]
  · intro h
    by_cases he : pyStrip line = "" <;> simp [decodeLine, decodeCore, he, h]
  · intro fields hne hp
    refine ⟨?_, ?_, ?_, ?_⟩
    · intro ht
      simp [decodeLine, decodeCore, hne, hp, ht]
    · intro ht
      simp [decodeLine, decodeCore, hne, hp, ht]
    · intro ht
      simp [decodeLine, decodeCore, hne, hp, ht]
    · intro t ht h1 h2 h3
      simp [decodeLine, decodeCore, hne, hp, ht, h1, h2, h3]
  · intro j hne hp hno
    rcases j with _ | bv | n | sv | xs | fields <;>
      simp [decodeLine, decodeCore, hne, hp]
    exact absurd rfl (hno fields)

/-- Claim C6 witness: with a parse outcome consistent with `json.loads`, a
whitespace-padded reset line decodes to `Reset 5`, `garbage` decodes to
`none`, and an unknown type decodes to `none`. -/
theorem decode_classification_witness :
    (decodeLine sampleParse ("  " ++ resetLine ++ " \t") = some (.reset (.num 5)))
    ∧ (decodeLine sampleParse "garbage" = none)
    ∧ (decodeLine sampleParse unknownLine = none) := by
  refine ⟨?_, ?_, ?_⟩
  · exact ((decode_classification sampleParse ("  " ++ resetLine ++ " \t")).2.2.2.1
      [("type", .str "reset"), ("position", .num 5)] (by decide) (by rfl)).1 (by rfl)
  · exact (decode_classification sampleParse "garbage").2.2.1 (by rfl)
  · exact ((decode_classification sampleParse unknownLine).2.2.2.1
      [("type", .str "unknown")] (by decide) (by rfl)).2.2.2 "unknown"
      (by rfl) (by decide) (by decide) (by decide)
